import Mathlib

/-!
# CompareKart — verification of the spec against the code

A shallow embedding of the CompareKart engine and frontend helpers.

The inspected sources of the repository contain the React frontend (pages,
components, API service) and documentation; the backend engine
(Search Orchestrator, Product Matcher, Comparison Builder) is not among
the inspected sources, so those components are modelled from the spec,
as marked in the doc comments below.  Frontend helpers
(`ResultsTable.formatPrice`, the ComparePage "Products Found" summary)
are embedded from the JavaScript source directly.

Numbers are modelled as `ℚ` (JS numbers on the price/count values used
here are exact decimals), JS `undefined`/`null`/`NaN` as `Option.none`.
-/

namespace CompareKart

/-- Modelled from the spec: §3 Listing — the backend data model is not in the
inspected sources.  `{title, price, platform, url?, rating?, delivery_info?,
image?}`. -/
structure Listing where
  title : String
  price : ℚ
  platform : String
  url : Option String := none
  rating : Option ℚ := none
  delivery_info : Option String := none
  image : Option String := none
deriving DecidableEq

/-- Modelled from the spec: §3 PlatformResult status `Ok|TimedOut|Failed(reason)`. -/
inductive ResultStatus where
  | ok : ResultStatus
  | timedOut : ResultStatus
  | failed : String → ResultStatus
deriving DecidableEq

/-- Modelled from the spec: §3 PlatformResult, one per adapter invocation. -/
structure PlatformResult where
  platform : String
  listings : List Listing
  status : ResultStatus
deriving DecidableEq

/-- Modelled from the spec: §2 Platform Adapter — returns listings or fails
with a platform-specific error (timeout or failure). -/
inductive AdapterOutcome where
  | ok : List Listing → AdapterOutcome
  | timedOut : AdapterOutcome
  | failed : String → AdapterOutcome
deriving DecidableEq

/-- Whether an adapter invocation succeeded. -/
def AdapterOutcome.isOk : AdapterOutcome → Bool
  | .ok _ => true
  | _ => false

/-- Modelled from the spec: §7 error kinds rejected before any work starts. -/
inductive SearchError where
  | emptyQuery : SearchError
  | noPlatformsSelected : SearchError
deriving DecidableEq

/-- Modelled from the spec: §3 ProductCluster — representative name plus the
member listings produced by the Matcher. -/
structure ProductCluster where
  representative_name : String
  members : List Listing
deriving DecidableEq

/-- Modelled from the spec: §3 ProductCluster members viewed as a mapping from
platform to the sequence of listings of that platform (multiplicity kept:
same-platform listings stay separate rows). -/
def membersByPlatform (c : ProductCluster) (p : String) : List Listing :=
  c.members.filter (fun m => m.platform == p)

/-- Modelled from the spec: §3 PriceStats `{min_price, avg_price, max_price}`. -/
structure PriceStats where
  min_price : ℚ
  avg_price : ℚ
  max_price : ℚ
deriving DecidableEq

/-- Modelled from the spec: §3 ComparisonEntry. -/
structure ComparisonEntry where
  product_name : String
  cluster : ProductCluster
  price_stats : PriceStats
  best_deal : Option Listing
  savings_amount : ℚ
  savings_percentage : ℚ
  individual : Bool
deriving DecidableEq

/-- Modelled from the spec: §3 ComparisonReport. -/
structure ComparisonReport where
  query : String
  timestamp : String
  comparisons : List ComparisonEntry
  total_comparisons : Nat
  total_savings : ℚ
  best_overall_deal : Option Listing
  platforms_searched : List String
deriving DecidableEq

/-! ## Frontend helpers embedded from the JavaScript source -/

/-- From `src/frontend/src/components/ResultsTable.js` (formatPrice, digit
grouping of the en-IN number format): insert a comma after the last three
digits and then after every further two, working over the reversed digit list;
`k` counts the digits still to emit before the next comma. -/
def revGroupAux : List Char → Nat → List Char
  | [], _ => []
  | c :: cs, 0 => ',' :: c :: revGroupAux cs 1
  | c :: cs, k + 1 => c :: revGroupAux cs k

/-- Indian-style digit grouping of a natural number (12,34,567). -/
def indianDigits (n : Nat) : String :=
  String.mk ((revGroupAux (toString n).data.reverse 3).reverse)

/-- From `src/frontend/src/components/ResultsTable.js`: the en-IN INR
currency formatter with maximumFractionDigits 0 applied to the price —
rupee sign plus the half-away-from-zero rounded integer amount with Indian
digit grouping. -/
def formatINR (p : ℚ) : String :=
  (if p < 0 then "-" else "") ++ "₹" ++ indianDigits (round |p|).toNat

/-- From `src/frontend/src/components/ResultsTable.js` lines 9–16: formatPrice
returns the string N/A for a falsy price and otherwise the INR-formatted
amount.  A JS falsy price is 0, NaN, null, undefined or an empty value;
`none` models the non-numeric falsy cases, `some 0` the zero price. -/
def formatPrice (price : Option ℚ) : String :=
  match price with
  | none => "N/A"
  | some p => if p = 0 then "N/A" else formatINR p

/-- From `src/unnamed/part_001` (ComparePage): JS property lookup
`results.platform_results?.<key>` — `none` when the object or the key is
absent. -/
def jsLookup (platform_results : Option (List (String × ℚ))) (k : String) :
    Option ℚ :=
  platform_results.bind (fun l => (l.find? (fun kv => kv.1 == k)).map (·.2))

/-- JS `+` on possibly-undefined numbers: `undefined` (or a `NaN` operand)
poisons the sum to `NaN`, modelled by `none`. -/
def jsAdd : Option ℚ → Option ℚ → Option ℚ
  | some a, some b => some (a + b)
  | _, _ => none

/-- JS `x || 0`: `NaN` (and `0` itself) falls back to `0`; any other number is
returned unchanged.  On `some 0` both branches agree on `0`. -/
def jsOrZero : Option ℚ → ℚ
  | none => 0
  | some v => v

/-- From `src/unnamed/part_001` lines 204–209 (ComparePage "Products Found"):
`results.platform_results?.amazon_count +
 results.platform_results?.flipkart_count +
 results.platform_results?.blinkit_count || 0`. -/
def productsFound (platform_results : Option (List (String × ℚ))) : ℚ :=
  jsOrZero
    (jsAdd
      (jsAdd (jsLookup platform_results "amazon_count")
        (jsLookup platform_results "flipkart_count"))
      (jsLookup platform_results "blinkit_count"))

/-! ## Product Matcher (modelled from the spec, §4.2) -/

/-- The rating of a listing with the optional value defaulted to 0, used for the
best-deal tie-break (spec §4.3). -/
def ratingOf (m : Listing) : ℚ :=
  m.rating.getD 0

/-- All ordered pairs `(x, y)` with `x` strictly before `y` in the list. -/
def pairsAfter : List (Nat × Listing) → List ((Nat × Listing) × (Nat × Listing))
  | [] => []
  | x :: xs => xs.map (fun y => (x, y)) ++ pairsAfter xs

/-- Modelled from the spec: §4.2 Step 2 — every pair of input listings, indexed
by insertion order. -/
def indexedPairs (l : List Listing) : List ((Nat × Listing) × (Nat × Listing)) :=
  pairsAfter l.enum

/-- Modelled from the spec: §4.2 Step 2 — each pair with its similarity score,
computed once by the pluggable scoring strategy (§9). -/
def scoredPairs (sim : Listing → Listing → ℚ) (l : List Listing) :
    List (ℚ × (Nat × Listing) × (Nat × Listing)) :=
  (indexedPairs l).map (fun p => (sim p.1.2 p.2.2, p))

/-- Descending-score ordering on scored pairs (spec §4.2 Step 3: candidate
pairs sorted by descending score). -/
def scoreGE (a b : ℚ × (Nat × Listing) × (Nat × Listing)) : Prop :=
  b.1 ≤ a.1

instance : DecidableRel scoreGE :=
  fun a b => inferInstanceAs (Decidable (b.1 ≤ a.1))

/-- Modelled from the spec: §4.2 Steps 2–3 — the candidate pairs: scores are
kept only for pairs of listings from *different* platforms scoring at or above
the threshold, sorted by descending score (stable, keeping pair insertion
order on ties). -/
def candidatePairs (sim : Listing → Listing → ℚ) (thr : ℚ) (l : List Listing) :
    List (ℚ × (Nat × Listing) × (Nat × Listing)) :=
  List.insertionSort scoreGE
    ((scoredPairs sim l).filter
      (fun s => s.2.1.2.platform != s.2.2.2.platform && decide (thr ≤ s.1)))

/-- Whether a group contains the listing with insertion index `i`. -/
def hasIdx (g : List (Nat × Listing)) (i : Nat) : Bool :=
  g.any (fun x => x.1 == i)

/-- Modelled from the spec: §4.2 Step 3 greedy union — merge the group holding
index `i` with the group holding index `j`, leaving every other group alone
(a no-op when neither index is present). -/
def mergeGroups (gs : List (List (Nat × Listing))) (i j : Nat) :
    List (List (Nat × Listing)) :=
  let a := (gs.filter (fun g => hasIdx g i)).flatten
  let b := (gs.filter (fun g => hasIdx g j && !hasIdx g i)).flatten
  let rest := gs.filter (fun g => !hasIdx g j && !hasIdx g i)
  if a ++ b = [] then gs else (a ++ b) :: rest

/-- Modelled from the spec: §4.2 Step 3 — process the candidate pairs in order,
greedily unioning the two endpoint groups of each pair. -/
def clusterSteps (prs : List (ℚ × (Nat × Listing) × (Nat × Listing)))
    (gs : List (List (Nat × Listing))) : List (List (Nat × Listing)) :=
  prs.foldl (fun acc p => mergeGroups acc p.2.1.1 p.2.2.1) gs

/-- Modelled from the spec: §4.2 Step 4 — initially every listing is its own
(single-platform) group, so a listing with no above-threshold partner ends as
an individual cluster. -/
def initGroups (l : List Listing) : List (List (Nat × Listing)) :=
  l.enum.map (fun x => [x])

/-- A finished cluster: representative name taken from the first member. -/
def mkCluster (ms : List Listing) : ProductCluster :=
  { representative_name := ((ms.head?).map (fun m => m.title)).getD ""
    members := ms }

/-- Modelled from the spec: §4.2 `match(listings) -> ProductCluster[]` — the
Product Matcher: score cross-platform pairs, greedily union above-threshold
pairs in descending-score order, and emit the resulting groups (the untouched
singletons being the individual/unmatched clusters). -/
def matchListings (sim : Listing → Listing → ℚ) (thr : ℚ) (l : List Listing) :
    List ProductCluster :=
  (clusterSteps (candidatePairs sim thr l) (initGroups l)).map
    (fun g => mkCluster (g.map (fun x => x.2)))

/-! ## Comparison Builder (modelled from the spec, §4.3) -/

/-- Minimum price over a member list (0 for the never-occurring empty list). -/
def listMinPrice : List Listing → ℚ
  | [] => 0
  | h :: t => t.foldl (fun acc m => min acc m.price) h.price

/-- Maximum price over a member list (0 for the never-occurring empty list). -/
def listMaxPrice : List Listing → ℚ
  | [] => 0
  | h :: t => t.foldl (fun acc m => max acc m.price) h.price

/-- Average price over a member list. -/
def avgPrice (ms : List Listing) : ℚ :=
  if ms.length = 0 then 0 else (ms.map (fun m => m.price)).sum / ms.length

/-- Modelled from the spec: §3/§4.3 PriceStats over the listings of a cluster. -/
def priceStats (ms : List Listing) : PriceStats :=
  { min_price := listMinPrice ms, avg_price := avgPrice ms,
    max_price := listMaxPrice ms }

/-- Keep the accumulated choice unless the new element is strictly better,
so the first-seen element wins all exact ties. -/
def pickBy (lt : Listing → Listing → Bool) (b m : Listing) : Listing :=
  if lt m b then m else b

/-- Modelled from the spec: §4.3 best-deal preference — strictly lower price,
or equal price with strictly higher rating. -/
def dealLt (a b : Listing) : Bool :=
  decide (a.price < b.price) ||
    (decide (a.price = b.price) && decide (ratingOf b < ratingOf a))

/-- Modelled from the spec: §4.3 — `best_deal` = the minimum-price listing,
ties broken by highest rating, then by first-seen order. -/
def bestDeal : List Listing → Option Listing
  | [] => none
  | h :: t => some (t.foldl (pickBy dealLt) h)

/-- Strictly-lower-price preference for the global best deal. -/
def priceLtB (a b : Listing) : Bool :=
  decide (a.price < b.price)

/-- Modelled from the spec: §4.3 — `best_overall_deal` = argmin price across
all ComparisonEntry.best_deal. -/
def bestOverall (es : List ComparisonEntry) : Option Listing :=
  match es.filterMap (fun e => e.best_deal) with
  | [] => none
  | h :: t => some (t.foldl (pickBy priceLtB) h)

/-- The distinct platforms represented in a member list. -/
def distinctPlatforms (ms : List Listing) : List String :=
  (ms.map (fun m => m.platform)).dedup

/-- Modelled from the spec: §3/§4.3 — build one ComparisonEntry from a
cluster: PriceStats over the members, best deal, `savings_amount = max_price −
min_price` (0 if fewer than two platforms), `savings_percentage =
savings_amount / max_price × 100` (0 if `max_price = 0`), and the
individual/unmatched flag for single-platform clusters. -/
def buildEntry (c : ProductCluster) : ComparisonEntry :=
  let stats := priceStats c.members
  let multi : Bool := decide (2 ≤ (distinctPlatforms c.members).length)
  let savings : ℚ := if multi then stats.max_price - stats.min_price else 0
  { product_name := c.representative_name
    cluster := c
    price_stats := stats
    best_deal := bestDeal c.members
    savings_amount := savings
    savings_percentage :=
      if stats.max_price = 0 then 0 else savings / stats.max_price * 100
    individual := !multi }

/-- Emission rank: multi-platform entries first, individual entries last. -/
def entryRank (e : ComparisonEntry) : Nat :=
  if e.individual then 1 else 0

/-- Modelled from the spec: §4.3 ordering — descending `savings_amount`,
individual/unmatched entries last. -/
def entryLE (a b : ComparisonEntry) : Prop :=
  entryRank a < entryRank b ∨
    (entryRank a = entryRank b ∧ b.savings_amount ≤ a.savings_amount)

instance : DecidableRel entryLE := fun _a _b =>
  inferInstanceAs (Decidable (_ ∨ _))

instance : IsTotal ComparisonEntry entryLE where
  total a b := by
    rcases Nat.lt_trichotomy (entryRank a) (entryRank b) with h | h | h
    · exact Or.inl (Or.inl h)
    · rcases le_total b.savings_amount a.savings_amount with hs | hs
      · exact Or.inl (Or.inr ⟨h, hs⟩)
      · exact Or.inr (Or.inr ⟨h.symm, hs⟩)
    · exact Or.inr (Or.inl h)

instance : IsTrans ComparisonEntry entryLE where
  trans a b c hab hbc := by
    rcases hab with hab | ⟨hab, hab2⟩
    · rcases hbc with hbc | ⟨hbc, _⟩
      · exact Or.inl (hab.trans hbc)
      · exact Or.inl (hbc ▸ hab)
    · rcases hbc with hbc | ⟨hbc, hbc2⟩
      · exact Or.inl (hab ▸ hbc)
      · exact Or.inr ⟨hab.trans hbc, hbc2.trans hab2⟩

/-- Modelled from the spec: §4.3 `build(clusters) -> ComparisonReport` — one
entry per cluster, sorted with biggest savings first and individual entries
last; totals and the global best deal over all entries. -/
def buildReport (query timestamp : String) (searched : List String)
    (clusters : List ProductCluster) : ComparisonReport :=
  let entries := List.insertionSort entryLE (clusters.map buildEntry)
  { query := query
    timestamp := timestamp
    comparisons := entries
    total_comparisons := entries.length
    total_savings := (entries.map (fun e => e.savings_amount)).sum
    best_overall_deal := bestOverall entries
    platforms_searched := searched }

/-! ## Search Orchestrator (modelled from the spec, §4.1) -/

/-- Modelled from the spec: §4.1 — one adapter invocation, its timeout or
failure absorbed into the per-platform status. -/
def adapterResult (run : String → AdapterOutcome) (p : String) :
    PlatformResult :=
  match run p with
  | .ok ls => { platform := p, listings := ls, status := .ok }
  | .timedOut => { platform := p, listings := [], status := .timedOut }
  | .failed r => { platform := p, listings := [], status := .failed r }

/-- A query that is empty after trimming: every character is whitespace. -/
def isBlank (query : String) : Bool :=
  query.data.all (fun c => c.isWhitespace)

/-- Modelled from the spec: §4.1 `search` — fail fast on an empty (after
trimming) query or an empty platform set; otherwise every selected adapter
yields a PlatformResult, adapter failures never escaping as hard errors. -/
def searchOrchestrate (query : String) (platforms : List String)
    (run : String → AdapterOutcome) : Except SearchError (List PlatformResult) :=
  if isBlank query then .error .emptyQuery
  else if platforms = [] then .error .noPlatformsSelected
  else .ok (platforms.map (adapterResult run))

/-- Listings flowing downstream to the Matcher: only those of successful
platform results (spec §4.1: TimedOut/Failed results are excluded). -/
def okListings (rs : List PlatformResult) : List Listing :=
  ((rs.filter (fun r => r.status == .ok)).map (fun r => r.listings)).flatten

/-- The platforms whose adapter invocation succeeded. -/
def platformsSearched (rs : List PlatformResult) : List String :=
  (rs.filter (fun r => r.status == .ok)).map (fun r => r.platform)

/-- Modelled from the spec: §2 data flow — query → Orchestrator → Matcher →
Comparison Builder → ComparisonReport. -/
def compareSearch (query timestamp : String) (platforms : List String)
    (run : String → AdapterOutcome) (sim : Listing → Listing → ℚ) (thr : ℚ) :
    Except SearchError ComparisonReport :=
  (searchOrchestrate query platforms run).map (fun rs =>
    buildReport query timestamp (platformsSearched rs)
      (matchListings sim thr (okListings rs)))

end CompareKart

namespace CompareKart

/-! ## Theorems for the frontend claims -/

theorem rupee_append_ne_na (s : String) : ("₹" ++ s) ≠ "N/A" := by
  intro h
  have hd : ("₹" ++ s).data = "N/A".data := by rw [h]
  rw [String.data_append] at hd
  have h1 : "₹".data = ['₹'] := rfl
  have h2 : "N/A".data = ['N', '/', 'A'] := rfl
  rw [h1, h2] at hd
  exact absurd (List.head_eq_of_cons_eq hd) (by decide)

theorem minus_append_ne_na (s : String) : ("-" ++ s) ≠ "N/A" := by
  intro h
  have hd : ("-" ++ s).data = "N/A".data := by rw [h]
  rw [String.data_append] at hd
  have h1 : "-".data = ['-'] := rfl
  have h2 : "N/A".data = ['N', '/', 'A'] := rfl
  rw [h1, h2] at hd
  exact absurd (List.head_eq_of_cons_eq hd) (by decide)

theorem formatINR_ne_na (p : ℚ) : formatINR p ≠ "N/A" := by
  unfold formatINR
  by_cases h : p < 0
  · rw [if_pos h, String.append_assoc]
    exact minus_append_ne_na _
  · rw [if_neg h]
    have : ("" ++ "₹" ++ indianDigits (round |p|).toNat)
        = ("₹" ++ indianDigits (round |p|).toNat) := by
      rw [String.append_assoc]
      rfl
    rw [this]
    exact rupee_append_ne_na _

/-- C9.  `formatPrice` returns "N/A" exactly for falsy prices — a missing
(`undefined`/`null`/`NaN`) price or a price of exactly `0` — and for every
nonzero price it returns the INR currency format of the price. -/
theorem formatPrice_na_iff_falsy (price : Option ℚ) :
    (formatPrice price = "N/A" ↔ price = none ∨ price = some 0) ∧
      (∀ p : ℚ, p ≠ 0 → formatPrice (some p) = formatINR p) := by
  constructor
  · constructor
    · intro h
      match price with
      | none => exact Or.inl rfl
      | some p =>
        by_cases hp : p = 0
        · exact Or.inr (by rw [hp])
        · exact absurd (by simpa [formatPrice, hp] using h) (formatINR_ne_na p)
    · intro h
      rcases h with h | h <;> simp [h, formatPrice]
  · intro p hp
    simp [formatPrice, hp]

/-- Witness for C9: the zero price renders as "N/A", a nonzero price as the
INR-formatted amount. -/
theorem formatPrice_na_iff_falsy_witness :
    formatPrice (some 0) = "N/A" ∧ formatPrice (some 81999) = "₹81,999" := by
  constructor
  · exact (formatPrice_na_iff_falsy (some 0)).1.2 (Or.inr rfl)
  · rw [(formatPrice_na_iff_falsy (some 81999)).2 81999 (by norm_num)]
    have hr : round |(81999 : ℚ)| = 81999 := by norm_num [round_eq]
    rw [formatINR, hr, if_neg (by norm_num : ¬(81999 : ℚ) < 0)]
    rfl

/-- C10.  The ComparePage "Products Found" total is the sum of exactly the
`amazon_count`, `flipkart_count` and `blinkit_count` fields of
`platform_results`: when all three are present the total is their sum, the
result depends on nothing but those three keys, and if any of the three is
absent the total falls back to `0` regardless of the other counts. -/
theorem productsFound_spec (pr : Option (List (String × ℚ))) :
    (∀ a f b : ℚ,
        jsLookup pr "amazon_count" = some a →
        jsLookup pr "flipkart_count" = some f →
        jsLookup pr "blinkit_count" = some b →
        productsFound pr = a + f + b) ∧
      (∀ pr2 : Option (List (String × ℚ)),
        jsLookup pr "amazon_count" = jsLookup pr2 "amazon_count" →
        jsLookup pr "flipkart_count" = jsLookup pr2 "flipkart_count" →
        jsLookup pr "blinkit_count" = jsLookup pr2 "blinkit_count" →
        productsFound pr = productsFound pr2) ∧
      ((jsLookup pr "amazon_count" = none ∨
        jsLookup pr "flipkart_count" = none ∨
        jsLookup pr "blinkit_count" = none) →
        productsFound pr = 0) := by
  refine ⟨?_, ?_, ?_⟩
  · intro a f b ha hf hb
    simp [productsFound, ha, hf, hb, jsAdd, jsOrZero]
  · intro pr2 ha hf hb
    simp [productsFound, ha, hf, hb]
  · intro h
    rcases h with h | h | h <;>
      · simp only [productsFound, h]
        cases h1 : jsLookup pr "amazon_count" <;>
          cases h2 : jsLookup pr "flipkart_count" <;>
            cases h3 : jsLookup pr "blinkit_count" <;>
              simp_all [jsAdd, jsOrZero]

/-- Witness for C10: with all three counts present the total is their sum; an
`amazon_count`-less object with other keys still yields 0; an unrelated
`zepto_count` key does not contribute. -/
theorem productsFound_spec_witness :
    productsFound
        (some [("amazon_count", 3), ("flipkart_count", 4), ("blinkit_count", 5)])
      = 12 ∧
    productsFound (some [("flipkart_count", 4), ("blinkit_count", 5),
        ("zepto_count", 100)]) = 0 := by
  constructor
  · have h := (productsFound_spec
      (some [("amazon_count", 3), ("flipkart_count", 4), ("blinkit_count", 5)])).1
      3 4 5 (by decide) (by decide) (by decide)
    rw [h]
    norm_num
  · exact (productsFound_spec (some [("flipkart_count", 4), ("blinkit_count", 5),
      ("zepto_count", 100)])).2.2 (Or.inl (by decide))

/-! ## Matcher invariants -/

theorem perm_three_split {α : Type} (P Q : α → Bool) (l : List α) :
    List.Perm l (l.filter P ++
      (l.filter (fun g => Q g && !P g) ++ l.filter (fun g => !Q g && !P g))) := by
  have h1 := List.filter_append_perm P l
  have h2 := List.filter_append_perm Q (l.filter (fun g => !P g))
  rw [List.filter_filter, List.filter_filter] at h2
  exact h1.symm.trans (h2.symm.append_left (l.filter P))

theorem mergeGroups_flatten_perm (gs : List (List (Nat × Listing))) (i j : Nat) :
    List.Perm (mergeGroups gs i j).flatten gs.flatten := by
  have h3 : List.Perm gs.flatten
      ((gs.filter (fun g => hasIdx g i)).flatten ++
        ((gs.filter (fun g => hasIdx g j && !hasIdx g i)).flatten ++
          (gs.filter (fun g => !hasIdx g j && !hasIdx g i)).flatten)) := by
    have h := (perm_three_split (fun g => hasIdx g i) (fun g => hasIdx g j)
      gs).flatten
    simpa [List.flatten_append] using h
  simp only [mergeGroups]
  split
  · exact List.Perm.refl _
  · rw [List.flatten_cons, List.append_assoc]
    exact h3.symm

theorem mergeGroups_ne_nil (gs : List (List (Nat × Listing))) (i j : Nat)
    (h : ∀ g ∈ gs, g ≠ []) : ∀ g ∈ mergeGroups gs i j, g ≠ [] := by
  intro g hg
  simp only [mergeGroups] at hg
  split at hg
  · exact h g hg
  next hne =>
    rcases List.mem_cons.mp hg with rfl | hg2
    · exact hne
    · exact h g (List.mem_of_mem_filter hg2)

theorem clusterSteps_flatten_perm
    (prs : List (ℚ × (Nat × Listing) × (Nat × Listing)))
    (gs : List (List (Nat × Listing))) :
    List.Perm (clusterSteps prs gs).flatten gs.flatten := by
  induction prs generalizing gs with
  | nil => exact List.Perm.refl _
  | cons p t ih =>
    exact (ih (mergeGroups gs p.2.1.1 p.2.2.1)).trans
      (mergeGroups_flatten_perm gs p.2.1.1 p.2.2.1)

theorem clusterSteps_ne_nil
    (prs : List (ℚ × (Nat × Listing) × (Nat × Listing)))
    (gs : List (List (Nat × Listing))) (h : ∀ g ∈ gs, g ≠ []) :
    ∀ g ∈ clusterSteps prs gs, g ≠ [] := by
  induction prs generalizing gs with
  | nil => exact h
  | cons p t ih =>
    exact ih (mergeGroups gs p.2.1.1 p.2.2.1)
      (mergeGroups_ne_nil gs p.2.1.1 p.2.2.1 h)

theorem flatten_map_singleton {α : Type} (xs : List α) :
    (xs.map (fun x => [x])).flatten = xs := by
  induction xs with
  | nil => rfl
  | cons x t ih => simp [ih]

theorem initGroups_flatten (l : List Listing) :
    (initGroups l).flatten = l.enum :=
  flatten_map_singleton l.enum

theorem initGroups_ne_nil (l : List Listing) :
    ∀ g ∈ initGroups l, g ≠ [] := by
  intro g hg
  rcases List.mem_map.mp hg with ⟨x, _, rfl⟩
  exact List.cons_ne_nil x []

theorem matchListings_members_eq (sim : Listing → Listing → ℚ) (thr : ℚ)
    (l : List Listing) :
    (matchListings sim thr l).map (fun c => c.members) =
      (clusterSteps (candidatePairs sim thr l) (initGroups l)).map
        (fun g => g.map (fun x => x.2)) := by
  simp only [matchListings, List.map_map]
  rfl

/-- C2.  The clusters produced by the Matcher partition the input: the concatenation of all
cluster members is a permutation of the input listing list (every listing in
exactly one cluster, none duplicated or dropped), and no cluster is empty. -/
theorem matcher_partition (sim : Listing → Listing → ℚ) (thr : ℚ)
    (l : List Listing) :
    List.Perm ((matchListings sim thr l).map (fun c => c.members)).flatten l ∧
      [] ∉ (matchListings sim thr l).map (fun c => c.members) := by
  constructor
  · rw [matchListings_members_eq]
    rw [← List.map_flatten]
    have h3 := (clusterSteps_flatten_perm (candidatePairs sim thr l)
      (initGroups l)).map Prod.snd
    rw [initGroups_flatten] at h3
    have h4 : (l.enum.map Prod.snd) = l := List.enumFrom_map_snd 0 l
    rw [h4] at h3
    exact h3
  · intro hmem
    rw [matchListings_members_eq] at hmem
    rcases List.mem_map.mp hmem with ⟨g, hg, hgeq⟩
    have hne := clusterSteps_ne_nil (candidatePairs sim thr l) (initGroups l)
      (initGroups_ne_nil l) g hg
    exact hne (List.map_eq_nil_iff.mp hgeq)

/-- Witness for C2 at a concrete two-listing input. -/
theorem matcher_partition_witness :
    List.Perm ((matchListings (fun _ _ => 1) (8 / 10)
        [{ title := "iPhone 15 128GB", price := 79999, platform := "Amazon" },
         { title := "Apple iPhone 15 (128 GB)", price := 81999,
           platform := "Flipkart" }]).map (fun c => c.members)).flatten
      [{ title := "iPhone 15 128GB", price := 79999, platform := "Amazon" },
       { title := "Apple iPhone 15 (128 GB)", price := 81999,
         platform := "Flipkart" }] ∧
      [] ∉ (matchListings (fun _ _ => 1) (8 / 10)
        [{ title := "iPhone 15 128GB", price := 79999, platform := "Amazon" },
         { title := "Apple iPhone 15 (128 GB)", price := 81999,
           platform := "Flipkart" }]).map (fun c => c.members) :=
  matcher_partition (fun _ _ => 1) (8 / 10) _

/-- C3.  Similarity scores are only computed for candidate pairs of listings
from different platforms, and a listing occurs in the member sequence kept
for its platform within its cluster exactly as often as in the whole cluster — two
same-platform listings in one cluster stay separate entries, never merged into
one slot. -/
theorem matcher_no_intra_platform (sim : Listing → Listing → ℚ) (thr : ℚ)
    (l : List Listing) :
    (∀ s ∈ candidatePairs sim thr l,
        s.2.1.2.platform ≠ s.2.2.2.platform) ∧
      (∀ c ∈ matchListings sim thr l, ∀ m : Listing,
        List.count m (membersByPlatform c m.platform) =
          List.count m c.members) := by
  constructor
  · intro s hs
    have h1 : s ∈ (scoredPairs sim l).filter
        (fun s => s.2.1.2.platform != s.2.2.2.platform && decide (thr ≤ s.1)) :=
      (List.mem_insertionSort scoreGE).mp hs
    have h2 := (List.mem_filter.mp h1).2
    simp only [Bool.and_eq_true, bne_iff_ne] at h2
    exact h2.1
  · intro c _hc m
    exact List.count_filter (by simp)

/-- Witness for C3 at a concrete three-listing input with two same-platform
listings. -/
theorem matcher_no_intra_platform_witness :
    (∀ s ∈ candidatePairs (fun _ _ => 1) (1 / 2)
        [{ title := "Maggi 70g", price := 14, platform := "Blinkit" },
         { title := "Maggi 140g", price := 28, platform := "Blinkit" },
         { title := "Maggi Noodles 70g", price := 13, platform := "Amazon" }],
        s.2.1.2.platform ≠ s.2.2.2.platform) ∧
      (∀ c ∈ matchListings (fun _ _ => 1) (1 / 2)
        [{ title := "Maggi 70g", price := 14, platform := "Blinkit" },
         { title := "Maggi 140g", price := 28, platform := "Blinkit" },
         { title := "Maggi Noodles 70g", price := 13, platform := "Amazon" }],
        ∀ m : Listing,
        List.count m (membersByPlatform c m.platform) =
          List.count m c.members) :=
  matcher_no_intra_platform (fun _ _ => 1) (1 / 2) _

theorem mem_pairsAfter {xs : List (Nat × Listing)}
    {p : (Nat × Listing) × (Nat × Listing)} (hp : p ∈ pairsAfter xs) :
    p.1 ∈ xs ∧ p.2 ∈ xs := by
  induction xs with
  | nil => cases hp
  | cons x t ih =>
    simp only [pairsAfter, List.mem_append] at hp
    rcases hp with hp | hp
    · rcases List.mem_map.mp hp with ⟨y, hy, rfl⟩
      exact ⟨List.mem_cons_self x t, List.mem_cons_of_mem x hy⟩
    · exact ⟨List.mem_cons_of_mem x (ih hp).1, List.mem_cons_of_mem x (ih hp).2⟩

theorem snd_mem_of_mem_enum {l : List Listing} {x : Nat × Listing}
    (hx : x ∈ l.enum) : x.2 ∈ l := by
  have h := List.mem_map_of_mem Prod.snd hx
  have h2 : List.map Prod.snd l.enum = l := List.enumFrom_map_snd 0 l
  rwa [h2] at h

/-- C4.  The Matcher is deterministic and depends only on the pairwise
similarity scores of the input listings: two scoring functions that agree on
all pairs of input listings produce identical cluster partitions. -/
theorem matcher_deterministic (sim1 sim2 : Listing → Listing → ℚ) (thr : ℚ)
    (l : List Listing) (h : ∀ a ∈ l, ∀ b ∈ l, sim1 a b = sim2 a b) :
    matchListings sim1 thr l = matchListings sim2 thr l := by
  have hs : scoredPairs sim1 l = scoredPairs sim2 l := by
    apply List.map_congr_left
    intro p hp
    have h1 := mem_pairsAfter hp
    rw [h (p.1.2) (snd_mem_of_mem_enum h1.1) (p.2.2) (snd_mem_of_mem_enum h1.2)]
  unfold matchListings candidatePairs
  rw [hs]

/-- Witness for C4 at a concrete two-listing input: the constant scorer and a
platform-dependent scorer are different functions (they disagree whenever the
first listing is from Zepto) but agree on every pair drawn from this
Amazon/Flipkart input, so the two runs produce identical partitions. -/
theorem matcher_deterministic_witness :
    matchListings (fun _ _ => 1) (8 / 10)
        [{ title := "iPhone 15 128GB", price := 79999, platform := "Amazon" },
         { title := "Apple iPhone 15 (128 GB)", price := 81999,
           platform := "Flipkart" }] =
      matchListings (fun a _ => if a.platform = "Zepto" then 0 else 1) (8 / 10)
        [{ title := "iPhone 15 128GB", price := 79999, platform := "Amazon" },
         { title := "Apple iPhone 15 (128 GB)", price := 81999,
           platform := "Flipkart" }] :=
  matcher_deterministic (fun _ _ => 1)
    (fun a _ => if a.platform = "Zepto" then 0 else 1) (8 / 10)
    [{ title := "iPhone 15 128GB", price := 79999, platform := "Amazon" },
     { title := "Apple iPhone 15 (128 GB)", price := 81999,
       platform := "Flipkart" }] (by decide)

/-! ## Best-deal selection -/

theorem dealLt_eq_true_iff (a b : Listing) :
    dealLt a b = true ↔
      (a.price < b.price ∨ (a.price = b.price ∧ ratingOf b < ratingOf a)) := by
  simp [dealLt]

theorem dealLt_eq_false_iff (a b : Listing) :
    dealLt a b = false ↔
      (b.price < a.price ∨ (b.price = a.price ∧ ratingOf a ≤ ratingOf b)) := by
  rw [← Bool.not_eq_true, dealLt_eq_true_iff]
  push_neg
  constructor
  · rintro ⟨h1, h2⟩
    rcases lt_or_eq_of_le h1 with hlt | heq
    · exact Or.inl hlt
    · exact Or.inr ⟨heq, h2 heq.symm⟩
  · rintro (h | ⟨heq, hle⟩)
    · exact ⟨le_of_lt h, fun hab => absurd hab (ne_of_gt h)⟩
    · exact ⟨le_of_eq heq, fun _ => hle⟩

theorem dealLt_irrefl (a : Listing) : dealLt a a = false := by
  simp [dealLt]

theorem dealLt_trans (a b c : Listing) (h1 : dealLt a b = true)
    (h2 : dealLt b c = true) : dealLt a c = true := by
  rw [dealLt_eq_true_iff] at h1 h2 ⊢
  rcases h1 with h1 | ⟨h1e, h1r⟩ <;> rcases h2 with h2 | ⟨h2e, h2r⟩
  · exact Or.inl (h1.trans h2)
  · exact Or.inl (lt_of_lt_of_le h1 (le_of_eq h2e))
  · exact Or.inl (lt_of_le_of_lt (le_of_eq h1e) h2)
  · exact Or.inr ⟨h1e.trans h2e, h2r.trans h1r⟩

theorem dealLt_negtrans (a b c : Listing) (h1 : dealLt a b = false)
    (h2 : dealLt b c = false) : dealLt a c = false := by
  rw [dealLt_eq_false_iff] at h1 h2 ⊢
  rcases h1 with h1 | ⟨h1e, h1r⟩ <;> rcases h2 with h2 | ⟨h2e, h2r⟩
  · exact Or.inl (h2.trans h1)
  · exact Or.inl (lt_of_le_of_lt (le_of_eq h2e) h1)
  · exact Or.inl (lt_of_lt_of_le h2 (le_of_eq h1e))
  · exact Or.inr ⟨h2e.trans h1e, h1r.trans h2r⟩

theorem dealLt_chain (a b c : Listing) (h1 : dealLt a b = true)
    (h2 : dealLt c b = false) : dealLt a c = true := by
  rw [dealLt_eq_true_iff] at h1 ⊢
  rw [dealLt_eq_false_iff] at h2
  rcases h1 with h1 | ⟨h1e, h1r⟩ <;> rcases h2 with h2 | ⟨h2e, h2r⟩
  · exact Or.inl (h1.trans h2)
  · exact Or.inl (lt_of_lt_of_le h1 (le_of_eq h2e))
  · exact Or.inl (lt_of_le_of_lt (le_of_eq h1e) h2)
  · exact Or.inr ⟨h1e.trans h2e, lt_of_le_of_lt h2r h1r⟩

theorem priceLtB_irrefl (a : Listing) : priceLtB a a = false := by
  simp [priceLtB]

theorem priceLtB_trans (a b c : Listing) (h1 : priceLtB a b = true)
    (h2 : priceLtB b c = true) : priceLtB a c = true := by
  simp only [priceLtB, decide_eq_true_eq] at h1 h2 ⊢
  exact h1.trans h2

theorem priceLtB_negtrans (a b c : Listing) (h1 : priceLtB a b = false)
    (h2 : priceLtB b c = false) : priceLtB a c = false := by
  simp only [priceLtB, decide_eq_false_iff_not, not_lt] at h1 h2 ⊢
  exact h2.trans h1

theorem priceLtB_chain (a b c : Listing) (h1 : priceLtB a b = true)
    (h2 : priceLtB c b = false) : priceLtB a c = true := by
  simp only [priceLtB, decide_eq_true_eq, decide_eq_false_iff_not, not_lt]
    at h1 h2 ⊢
  exact lt_of_lt_of_le h1 h2

theorem foldPick_mem (lt : Listing → Listing → Bool) (b : Listing)
    (t : List Listing) : t.foldl (pickBy lt) b ∈ b :: t := by
  induction t generalizing b with
  | nil => exact List.mem_singleton.mpr rfl
  | cons h t ih =>
    show List.foldl (pickBy lt) (pickBy lt b h) t ∈ b :: h :: t
    rcases List.mem_cons.mp (ih (pickBy lt b h)) with heq | hmem
    · rw [heq]
      unfold pickBy
      split
      · exact List.mem_cons_of_mem b (List.mem_cons_self h t)
      · exact List.mem_cons_self b (h :: t)
    · exact List.mem_cons_of_mem b (List.mem_cons_of_mem h hmem)

theorem foldPick_not_lt (lt : Listing → Listing → Bool)
    (hirr : ∀ a, lt a a = false)
    (htrans : ∀ a b c, lt a b = true → lt b c = true → lt a c = true)
    (hneg : ∀ a b c, lt a b = false → lt b c = false → lt a c = false)
    (b : Listing) (t : List Listing) :
    ∀ m ∈ b :: t, lt m (t.foldl (pickBy lt) b) = false := by
  induction t generalizing b with
  | nil =>
    intro m hm
    rw [List.mem_singleton.mp hm]
    exact hirr b
  | cons h t ih =>
    intro m hm
    show lt m (List.foldl (pickBy lt) (pickBy lt b h) t) = false
    cases hhb : lt h b with
    | false =>
      have hpick : pickBy lt b h = b := by simp [pickBy, hhb]
      rw [hpick]
      rcases List.mem_cons.mp hm with rfl | hm2
      · exact ih m m (List.mem_cons_self m t)
      · rcases List.mem_cons.mp hm2 with rfl | hm3
        · exact hneg m b _ hhb (ih b b (List.mem_cons_self b t))
        · exact ih b m (List.mem_cons_of_mem b hm3)
    | true =>
      have hpick : pickBy lt b h = h := by simp [pickBy, hhb]
      rw [hpick]
      rcases List.mem_cons.mp hm with rfl | hm2
      · cases hbr : lt m (List.foldl (pickBy lt) h t) with
        | false => rfl
        | true =>
          have hh := htrans h m _ hhb hbr
          have h2 := ih h h (List.mem_cons_self h t)
          exact absurd hh (by simp [h2])
      · rcases List.mem_cons.mp hm2 with rfl | hm3
        · exact ih m m (List.mem_cons_self m t)
        · exact ih h m (List.mem_cons_of_mem h hm3)

theorem foldPick_first (lt : Listing → Listing → Bool)
    (htrans : ∀ a b c, lt a b = true → lt b c = true → lt a c = true)
    (hchain : ∀ a b c, lt a b = true → lt c b = false → lt a c = true)
    (b : Listing) (t : List Listing) :
    ∃ l₁ l₂, b :: t = l₁ ++ (t.foldl (pickBy lt) b) :: l₂ ∧
      ∀ m ∈ l₁, lt (t.foldl (pickBy lt) b) m = true := by
  induction t generalizing b with
  | nil => exact ⟨[], [], rfl, by simp⟩
  | cons h t ih =>
    show ∃ l₁ l₂,
      b :: h :: t = l₁ ++ (List.foldl (pickBy lt) (pickBy lt b h) t) :: l₂ ∧
        ∀ m ∈ l₁, lt (List.foldl (pickBy lt) (pickBy lt b h) t) m = true
    cases hhb : lt h b with
    | false =>
      have hpick : pickBy lt b h = b := by simp [pickBy, hhb]
      rw [hpick]
      obtain ⟨l₁, l₂, hdec, hlt⟩ := ih b
      rcases l₁ with _ | ⟨x, l₁x⟩
      · have hfold : List.foldl (pickBy lt) b t = b :=
          (List.cons.inj hdec).1.symm
        rw [hfold]
        exact ⟨[], h :: t, rfl, by simp⟩
      · have hx : x = b := (List.cons.inj hdec).1.symm
        have ht : t = l₁x ++ (List.foldl (pickBy lt) b t) :: l₂ :=
          (List.cons.inj hdec).2
        rw [hx] at hlt
        refine ⟨b :: h :: l₁x, l₂, ?_, ?_⟩
        · rw [List.cons_append, List.cons_append, ← ht]
        · intro m hm
          rcases List.mem_cons.mp hm with rfl | hm2
          · exact hlt m (List.mem_cons_self m l₁x)
          · rcases List.mem_cons.mp hm2 with rfl | hm3
            · exact hchain _ b m (hlt b (List.mem_cons_self b l₁x)) hhb
            · exact hlt m (List.mem_cons_of_mem b hm3)
    | true =>
      have hpick : pickBy lt b h = h := by simp [pickBy, hhb]
      rw [hpick]
      obtain ⟨l₁, l₂, hdec, hlt⟩ := ih h
      rcases l₁ with _ | ⟨x, l₁x⟩
      · have hfold : List.foldl (pickBy lt) h t = h :=
          (List.cons.inj hdec).1.symm
        have hl2 : t = l₂ := (List.cons.inj hdec).2
        rw [hfold]
        exact ⟨[b], t, by rw [hl2]; rfl, by simpa using hhb⟩
      · have hx : x = h := (List.cons.inj hdec).1.symm
        have ht : t = l₁x ++ (List.foldl (pickBy lt) h t) :: l₂ :=
          (List.cons.inj hdec).2
        rw [hx] at hlt
        refine ⟨b :: h :: l₁x, l₂, ?_, ?_⟩
        · rw [List.cons_append, List.cons_append, ← ht]
        · intro m hm
          rcases List.mem_cons.mp hm with rfl | hm2
          · exact htrans _ h m (hlt h (List.mem_cons_self h l₁x)) hhb
          · rcases List.mem_cons.mp hm2 with rfl | hm3
            · exact hlt m (List.mem_cons_self m l₁x)
            · exact hlt m (List.mem_cons_of_mem h hm3)

theorem buildReport_comparisons (q ts : String) (ps : List String)
    (clusters : List ProductCluster) :
    (buildReport q ts ps clusters).comparisons =
      List.insertionSort entryLE (clusters.map buildEntry) := rfl

theorem buildReport_best_overall (q ts : String) (ps : List String)
    (clusters : List ProductCluster) :
    (buildReport q ts ps clusters).best_overall_deal =
      bestOverall (List.insertionSort entryLE (clusters.map buildEntry)) := rfl

/-- C7.  For every non-empty cluster member list, `bestDeal` returns a member
with minimum price; ties are broken by highest rating (no equal-priced member
has a higher rating) and then by first-seen order (every member strictly
preceding the chosen one is strictly worse in the price-then-rating order).
The best_overall_deal of the report is one of the per-entry best deals and
has the globally minimal price among them. -/
theorem best_deal_spec :
    (∀ ms : List Listing, ms ≠ [] →
      ∃ r, bestDeal ms = some r ∧ r ∈ ms ∧
        (∀ m ∈ ms, r.price ≤ m.price) ∧
        (∀ m ∈ ms, m.price = r.price → ratingOf m ≤ ratingOf r) ∧
        (∃ l₁ l₂, ms = l₁ ++ r :: l₂ ∧ ∀ m ∈ l₁, dealLt r m = true)) ∧
      (∀ (q ts : String) (ps : List String) (clusters : List ProductCluster)
          (b : Listing),
        (buildReport q ts ps clusters).best_overall_deal = some b →
        b ∈ (buildReport q ts ps clusters).comparisons.filterMap
            (fun e => e.best_deal) ∧
          ∀ x ∈ (buildReport q ts ps clusters).comparisons.filterMap
              (fun e => e.best_deal), b.price ≤ x.price) := by
  constructor
  · intro ms hms
    match ms, hms with
    | h :: t, _ =>
      refine ⟨t.foldl (pickBy dealLt) h, rfl, foldPick_mem dealLt h t, ?_, ?_,
        foldPick_first dealLt dealLt_trans dealLt_chain h t⟩
      · intro m hm
        have hf := foldPick_not_lt dealLt dealLt_irrefl dealLt_trans
          dealLt_negtrans h t m hm
        rw [dealLt_eq_false_iff] at hf
        rcases hf with hf | ⟨hfe, _⟩
        · exact le_of_lt hf
        · exact le_of_eq hfe
      · intro m hm hpm
        have hf := foldPick_not_lt dealLt dealLt_irrefl dealLt_trans
          dealLt_negtrans h t m hm
        rw [dealLt_eq_false_iff] at hf
        rcases hf with hf | ⟨_, hfr⟩
        · exact absurd (hpm ▸ hf) (lt_irrefl _)
        · exact hfr
  · intro q ts ps clusters b hb
    rw [buildReport_best_overall] at hb
    rw [buildReport_comparisons]
    unfold bestOverall at hb
    cases hfm : (List.insertionSort entryLE (clusters.map buildEntry)).filterMap
        (fun e => e.best_deal) with
    | nil =>
      rw [hfm] at hb
      simp at hb
    | cons x t =>
      rw [hfm] at hb
      simp only [Option.some.injEq] at hb
      constructor
      · rw [← hb]
        exact foldPick_mem priceLtB x t
      · intro y hy
        have hf := foldPick_not_lt priceLtB priceLtB_irrefl priceLtB_trans
          priceLtB_negtrans x t y hy
        rw [← hb]
        simp only [priceLtB, decide_eq_false_iff_not, not_lt] at hf
        exact hf

/-- Witness for C7 at a concrete two-listing cluster. -/
theorem best_deal_spec_witness :
    ∃ r, bestDeal
        [{ title := "iPhone 15 128GB", price := 79999, platform := "Amazon" },
         { title := "Apple iPhone 15 (128 GB)", price := 81999,
           platform := "Flipkart" }] = some r ∧
      r ∈ [{ title := "iPhone 15 128GB", price := 79999,
              platform := "Amazon" : Listing },
           { title := "Apple iPhone 15 (128 GB)", price := 81999,
             platform := "Flipkart" }] ∧
      (∀ m ∈ [{ title := "iPhone 15 128GB", price := 79999,
                 platform := "Amazon" : Listing },
              { title := "Apple iPhone 15 (128 GB)", price := 81999,
                platform := "Flipkart" }], r.price ≤ m.price) ∧
      (∀ m ∈ [{ title := "iPhone 15 128GB", price := 79999,
                 platform := "Amazon" : Listing },
              { title := "Apple iPhone 15 (128 GB)", price := 81999,
                platform := "Flipkart" }],
        m.price = r.price → ratingOf m ≤ ratingOf r) ∧
      (∃ l₁ l₂, [{ title := "iPhone 15 128GB", price := 79999,
                    platform := "Amazon" : Listing },
                 { title := "Apple iPhone 15 (128 GB)", price := 81999,
                   platform := "Flipkart" }] = l₁ ++ r :: l₂ ∧
        ∀ m ∈ l₁, dealLt r m = true) :=
  best_deal_spec.1 _ (by simp)

/-! ## Savings fields and report ordering -/

/-- C1.  A ComparisonEntry built from a cluster spanning at least two
platforms has `savings_amount = max_price − min_price` and
`savings_percentage = savings_amount / max_price × 100` (0 when
`max_price = 0`); an entry built from a single-platform cluster has zero
savings fields, and for a single-listing cluster additionally `best_deal` is
that listing. -/
theorem entry_savings_spec (c : ProductCluster) :
    (2 ≤ (distinctPlatforms c.members).length →
      (buildEntry c).savings_amount =
          (priceStats c.members).max_price - (priceStats c.members).min_price ∧
        (buildEntry c).savings_percentage =
          (if (priceStats c.members).max_price = 0 then 0
           else (buildEntry c).savings_amount /
             (priceStats c.members).max_price * 100)) ∧
      ((distinctPlatforms c.members).length < 2 →
        (buildEntry c).savings_amount = 0 ∧
          (buildEntry c).savings_percentage = 0) ∧
      (∀ m : Listing, c.members = [m] →
        (buildEntry c).savings_amount = 0 ∧
          (buildEntry c).savings_percentage = 0 ∧
          (buildEntry c).best_deal = some m) := by
  refine ⟨?_, ?_, ?_⟩
  · intro h
    have hm : decide (2 ≤ (distinctPlatforms c.members).length) = true :=
      decide_eq_true h
    constructor
    · simp [buildEntry, hm]
    · simp [buildEntry, hm]
  · intro h
    have hm : decide (2 ≤ (distinctPlatforms c.members).length) = false :=
      decide_eq_false (by omega)
    constructor
    · simp [buildEntry, hm]
    · simp only [buildEntry, hm]
      split <;> simp
  · intro m hmem
    have hlen : (distinctPlatforms c.members).length < 2 := by
      rw [hmem]
      simp [distinctPlatforms]
    have hm : decide (2 ≤ (distinctPlatforms c.members).length) = false :=
      decide_eq_false (by omega)
    refine ⟨by simp [buildEntry, hm], ?_, ?_⟩
    · simp only [buildEntry, hm]
      split <;> simp
    · simp [buildEntry, hmem, bestDeal]

/-- Witness for C1: a two-platform cluster gets `max − min` savings, a
single-listing cluster gets zero savings and itself as best deal. -/
theorem entry_savings_spec_witness :
    (buildEntry (mkCluster
        [{ title := "iPhone 15 128GB", price := 79999, platform := "Amazon" },
         { title := "Apple iPhone 15 (128 GB)", price := 81999,
           platform := "Flipkart" }])).savings_amount = 2000 ∧
      (buildEntry (mkCluster
        [{ title := "Samsung Galaxy S24", price := 74999,
           platform := "Amazon" }])).savings_amount = 0 ∧
      (buildEntry (mkCluster
        [{ title := "Samsung Galaxy S24", price := 74999,
           platform := "Amazon" }])).best_deal =
        some { title := "Samsung Galaxy S24", price := 74999,
               platform := "Amazon" } := by
  refine ⟨?_, ?_, ?_⟩
  · have h := (entry_savings_spec (mkCluster
      [{ title := "iPhone 15 128GB", price := 79999, platform := "Amazon" },
       { title := "Apple iPhone 15 (128 GB)", price := 81999,
         platform := "Flipkart" }])).1 (by decide)
    rw [h.1]
    simp [priceStats, mkCluster, listMaxPrice, listMinPrice]
    norm_num
  · exact ((entry_savings_spec _).2.2
      { title := "Samsung Galaxy S24", price := 74999, platform := "Amazon" }
      rfl).1
  · exact ((entry_savings_spec _).2.2
      { title := "Samsung Galaxy S24", price := 74999, platform := "Amazon" }
      rfl).2.2

theorem entryRank_eq_one_iff (e : ComparisonEntry) :
    entryRank e = 1 ↔ e.individual = true := by
  unfold entryRank
  cases h : e.individual <;> simp [h]

theorem entryRank_le_one (e : ComparisonEntry) : entryRank e ≤ 1 := by
  unfold entryRank
  split <;> omega

theorem foldl_min_le_foldl_max (t : List Listing) (a b : ℚ) (hab : a ≤ b) :
    t.foldl (fun acc m => min acc m.price) a ≤
      t.foldl (fun acc m => max acc m.price) b := by
  induction t generalizing a b with
  | nil => exact hab
  | cons h t ih =>
    exact ih _ _ (le_trans (min_le_left a h.price)
      (le_trans hab (le_max_left b h.price)))

theorem listMinPrice_le_listMaxPrice (ms : List Listing) :
    listMinPrice ms ≤ listMaxPrice ms := by
  cases ms with
  | nil => exact le_refl 0
  | cons h t => exact foldl_min_le_foldl_max t h.price h.price (le_refl _)

theorem buildEntry_savings_nonneg (c : ProductCluster) :
    0 ≤ (buildEntry c).savings_amount := by
  simp only [buildEntry]
  split
  · exact sub_nonneg.mpr (listMinPrice_le_listMaxPrice c.members)
  · exact le_refl 0

theorem buildEntry_individual_savings (c : ProductCluster)
    (h : (buildEntry c).individual = true) :
    (buildEntry c).savings_amount = 0 := by
  have hm : decide (2 ≤ (distinctPlatforms c.members).length) = false := by
    simpa [buildEntry] using h
  simp [buildEntry, hm]

/-- C8.  The comparisons of the report are emitted in descending order of
`savings_amount`, and no individual (single-platform) entry precedes a
multi-platform entry: pairwise along the list, later entries have no larger
savings, and an individual entry is only ever followed by individual
entries. -/
theorem report_ordering (q ts : String) (ps : List String)
    (clusters : List ProductCluster) :
    (buildReport q ts ps clusters).comparisons.Pairwise
      (fun a b => b.savings_amount ≤ a.savings_amount ∧
        (a.individual = true → b.individual = true)) := by
  have hs : (List.insertionSort entryLE (clusters.map buildEntry)).Pairwise
      entryLE :=
    List.sorted_insertionSort entryLE (clusters.map buildEntry)
  rw [buildReport_comparisons]
  refine List.Pairwise.imp_of_mem ?_ hs
  intro a b ha hb hab
  obtain ⟨ca, _, rfl⟩ :=
    List.mem_map.mp ((List.mem_insertionSort entryLE).mp ha)
  obtain ⟨cb, _, rfl⟩ :=
    List.mem_map.mp ((List.mem_insertionSort entryLE).mp hb)
  constructor
  · rcases hab with h | ⟨_, h2⟩
    · have hbi : (buildEntry cb).individual = true := by
        rw [← entryRank_eq_one_iff]
        have h1 := entryRank_le_one (buildEntry cb)
        omega
      rw [buildEntry_individual_savings cb hbi]
      exact buildEntry_savings_nonneg ca
    · exact h2
  · intro hai
    rcases hab with h | ⟨heq, _⟩
    · have h1 := entryRank_le_one (buildEntry cb)
      have ha1 : entryRank (buildEntry ca) = 1 :=
        (entryRank_eq_one_iff _).mpr hai
      omega
    · exact (entryRank_eq_one_iff _).mp
        (heq ▸ (entryRank_eq_one_iff _).mpr hai)

/-! ## Orchestrator failure policy -/

/-- C5.  The search fails as a whole exactly when the query is blank after
trimming or no platform is selected; on every other input it returns one
PlatformResult per selected platform, adapter timeouts and failures being
absorbed into per-platform statuses, never raised to the caller. -/
theorem search_failure_policy (q : String) (ps : List String)
    (run : String → AdapterOutcome) :
    ((∃ e, searchOrchestrate q ps run = Except.error e) ↔
        (isBlank q = true ∨ ps = [])) ∧
      (isBlank q = false → ps ≠ [] →
        searchOrchestrate q ps run = Except.ok (ps.map (adapterResult run))) := by
  unfold searchOrchestrate
  constructor
  · constructor
    · rintro ⟨e, he⟩
      by_cases h1 : isBlank q = true
      · exact Or.inl h1
      · by_cases h2 : ps = []
        · exact Or.inr h2
        · rw [if_neg h1, if_neg h2] at he
          cases he
    · rintro (h | h)
      · exact ⟨.emptyQuery, by rw [if_pos h]⟩
      · by_cases h1 : isBlank q = true
        · exact ⟨.emptyQuery, by rw [if_pos h1]⟩
        · exact ⟨.noPlatformsSelected, by rw [if_neg h1, if_pos h]⟩
  · intro h1 h2
    rw [if_neg (by simp [h1]), if_neg h2]

/-- Witness for C5: a valid query with a failing adapter returns a
per-platform failed result rather than an error, and a blank query is
rejected. -/
theorem search_failure_policy_witness :
    searchOrchestrate "iPhone 15" ["amazon"]
        (fun _ => AdapterOutcome.failed "boom")
      = Except.ok [⟨"amazon", [], ResultStatus.failed "boom"⟩] ∧
      (∃ e, searchOrchestrate "   " ["amazon"] (fun _ => AdapterOutcome.timedOut)
        = Except.error e) := by
  constructor
  · rw [(search_failure_policy "iPhone 15" ["amazon"] _).2 (by decide) (by simp)]
    rfl
  · exact (search_failure_policy "   " ["amazon"] _).1.mpr (Or.inl (by decide))

theorem matchListings_nil (sim : Listing → Listing → ℚ) (thr : ℚ) :
    matchListings sim thr [] = [] := rfl

/-- C6.  When every selected adapter fails or times out, the pipeline still
returns a ComparisonReport — no error to the caller — with zero comparisons,
an empty comparison list and no platforms searched. -/
theorem all_fail_empty_report (q ts : String) (ps : List String)
    (run : String → AdapterOutcome) (sim : Listing → Listing → ℚ) (thr : ℚ)
    (h1 : isBlank q = false) (h2 : ps ≠ [])
    (h3 : ∀ p ∈ ps, (run p).isOk = false) :
    ∃ rep, compareSearch q ts ps run sim thr = Except.ok rep ∧
      rep.total_comparisons = 0 ∧ rep.comparisons = [] ∧
      rep.platforms_searched = [] := by
  have hfil : (ps.map (adapterResult run)).filter
      (fun r => r.status == ResultStatus.ok) = [] := by
    rw [List.filter_eq_nil_iff]
    intro r hr
    rcases List.mem_map.mp hr with ⟨p, hp, rfl⟩
    have hio := h3 p hp
    unfold adapterResult
    cases hrun : run p with
    | ok ls => rw [hrun] at hio; simp [AdapterOutcome.isOk] at hio
    | timedOut => simp
    | failed r => simp
  have hok : searchOrchestrate q ps run =
      Except.ok (ps.map (adapterResult run)) := by
    unfold searchOrchestrate
    rw [if_neg (by simp [h1]), if_neg h2]
  have hpl : platformsSearched (ps.map (adapterResult run)) = [] := by
    unfold platformsSearched
    rw [hfil]
    rfl
  have hol : okListings (ps.map (adapterResult run)) = [] := by
    unfold okListings
    rw [hfil]
    rfl
  refine ⟨buildReport q ts [] [], ?_, rfl, rfl, rfl⟩
  unfold compareSearch
  rw [hok]
  simp only [Except.map]
  rw [hpl, hol, matchListings_nil]

/-- Witness for C6: two timed-out adapters still yield an empty report. -/
theorem all_fail_empty_report_witness :
    ∃ rep, compareSearch "iPhone 15" "2024-01-01" ["amazon", "blinkit"]
        (fun _ => AdapterOutcome.timedOut) (fun _ _ => 1) (8 / 10) =
          Except.ok rep ∧
      rep.total_comparisons = 0 ∧ rep.comparisons = [] ∧
      rep.platforms_searched = [] :=
  all_fail_empty_report "iPhone 15" "2024-01-01" ["amazon", "blinkit"]
    (fun _ => AdapterOutcome.timedOut) (fun _ _ => 1) (8 / 10) (by decide)
    (by simp) (fun _ _ => rfl)

end CompareKart
